import Mathlib

/-!
# sg4k: packet framing, checksum and diagnostic decoding

A shallow embedding of `sg4k.c`, the host-side controller of an HDMI signal
generator on a serial line.  Bytes (`u8`) are natural numbers below 256, a
byte array is a `List Nat`, and C's unsigned arithmetic is written with explicit
reductions modulo `2^8` and `2^16`.
-/

set_option autoImplicit false
set_option maxRecDepth 100000

namespace Sg4k

/-! ## Byte arrays -/

/-- The byte `buf[i]` of the array `buf` points to.  Both callers of the decoder
pass a 256-byte array, so every offset the program reads lies inside the list;
an offset past the end of the list reads as 0. -/
def byte (buf : List Nat) (i : Nat) : Nat := buf.getD i 0

/-! ## `enum command` -/

@[reducible] def timing : Nat := 0x61
@[reducible] def pattern : Nat := 0x62
@[reducible] def colorspace : Nat := 0x63
@[reducible] def deepcolor : Nat := 0x64
@[reducible] def hdcp : Nat := 0x65
@[reducible] def output_type : Nat := 0x66
@[reducible] def audio_sampling : Nat := 0x67
@[reducible] def audio_width : Nat := 0x68
@[reducible] def audio_source : Nat := 0x69
@[reducible] def audio_channel : Nat := 0x6a
@[reducible] def user_timing : Nat := 0xa0
@[reducible] def sink_edid : Nat := 0xaa
@[reducible] def output_power : Nat := 0xab
@[reducible] def set_addr : Nat := 0x7801
@[reducible] def reset : Nat := 0x7802
@[reducible] def read_native_timing : Nat := 0x80a1
@[reducible] def read_output_status : Nat := 0x80a9
@[reducible] def read_edid : Nat := 0xb838
@[reducible] def read_hpd_status : Nat := 0xb839
@[reducible] def read_address : Nat := 0xf801
@[reducible] def response : Nat := 0xffff

/-! ## Value tables -/

/-- The table `timings` (the adjacent literals of lines 109-110 are one string). -/
def timings : List String := [
  "VESA640x480P_60HZ", "VESA800x600P_60HZ", "VESA1024x768P_60HZ", "VESA1280x768P_60HZ",
  "VESA1360x768P_60HZ", "VESA1280x960P_60HZ", "VESA1280x1024P_60HZ", "VESA1400x1050P_60HZ",
  "VESA1600x1200P_60HZ", "VESA1920x1200P_60HZ", "CEAVIC1440x480I_60HZ", "CEAVIC720x480P_60HZ",
  "CEAVIC1280x720P_60HZ", "CEAVIC1280x720P_59.94", "CEAVIC1920x1080I_60HZ",
  "CEAVIC1920x1080I_59.95HZ", "CEAVIC1920x1080P_30HZ", "CEAVIC1920x1080P_29.95HZ",
  "CEAVIC1920x1080P_24HZ", "CEAVIC1920x1080P_23.976HZ", "CEAVIC1920x1080P_60HZ",
  "CEAVIC1920x1080P_59.94HZ", "CEAVIC1440x576I_50HZ", "CEAVIC720x576P_50HZ",
  "CEAVIC1280x720P_50HZ", "CEAVIC1920x1080I_50HZ", "CEAVIC1920x1080P_25HZ",
  "CEAVIC1920x1080P_50HZ", "HDMIVIC4Kx2K_30HZ", "HDMIVIC4Kx2K_29.97HZ", "HDMIVIC4Kx2K_25HZ",
  "HDMIVIC4Kx2K_24HZ", "HDMIVIC4Kx2K_23.98HZ", "SMPTE4Kx2K_24HZ", "H20_4KYUV420_60HZ",
  "H20_4KYUV420_59.94HZ", "H20_4KYUV420_50HZ", "FP3D_1280x720P_60HZ",
  "FP3D_1280x720P_59.94HZFP3D_1920x1080P_24HZ", "FP3D_1920x1080P_23.976HZ",
  "FP3D_1920x1080P_50HZ", "SBSHALF3D_1280x720P_59HZ", "SBSHALF3D_1920x1080I_59.94HZ",
  "SBSHALF3D_1920x1080P_59.94HZ", "SBSHALF3D_1920x1080P_23.976HZ", "SBSHALF3D_1280x720P_50HZ",
  "SBSHALF3D_1920x1080I_50HZ", "SBSHALF3D_1920x1080P_50HZ", "TAB3D_1280x720P_59.94HZ",
  "TAB3D_1920x1080P_59.94HZ", "TAB3D_1920x1080P_23.976HZ", "TAB3D_1280x1080P_23.976HZ",
  "TAB3D_1280x720P_50HZ", "TAB3D_1920x1080P_50HZ", "Auto", "User1", "User2", "User3", "User4",
  "User5", "User6", "User7", "User8", "User9", "User10"]

/-- The table `responses`. -/
def responses : List String := [
  "ok", "crc_err", "invalid_cmd", "failed", "invalid_param"]

/-- The table `patterns`. -/
def patterns : List String := [
  "100% ColorBar", "75% ColorBar", "8 StepGrayBar", "RedScreen", "GreenScreen", "BlueScreen",
  "YellowScreen", "CyanScreen", "MagentaScreen", "16 StepGrayBar", "WhiteScreen", "RGB Ramp",
  "Cross Black", "Cross Red", "Cross Green", "Cross Blue", "Square", "White dots",
  "AlternateWB", "White HScroll", "White VScroll", "Multiburst", "Ver-split", "Hor-split",
  "Red Ramp", "Green Ramp", "Blue Ramp", "W/B Bounce", "Border lines", "Window",
  "Target Circle", "Moving Ball", "3D boxes", "SMPTE ColorBar"]

/-- The table `colorspaces`. -/
def colorspaces : List String := [
  "RGB444", "YUV444", "YUV422", "Auto", "YUV420"]

/-- The table `deepcolors`. -/
def deepcolors : List String := [
  "24bit", "30bit", "36bit", "48bit", "Auto"]

/-- The table `output_types`. -/
def output_types : List String := [
  "DVI", "HDMI", "Auto"]

/-- The table `audio_samplerates`. -/
def audio_samplerates : List String := [
  "32KHz", "44.1KHz", "48KHz", "88KHz", "96KHz", "176KHz", "192KHz", "Auto"]

/-- The table `audio_widths`. -/
def audio_widths : List String := [
  "16bit", "20bit", "24bit", "Auto"]

/-- The table `audio_channels`. -/
def audio_channels : List String := [
  "2ch", "3ch", "4ch", "5ch", "6ch", "7ch", "8ch", "Auto"]

/-- The table `enables`. -/
def enables : List String := [
  "off", "on"]

/-! ## Reading a value table -/

/-- What the C expression `table[i]` yields: the label at index `i`, or a read at
or past the end of the array (which C does not check: the read leaves the table). -/
inductive Lookup where
  | label (s : String)
  | overread
  deriving DecidableEq, Repr

/-- The C expression `table[i]` on a table of strings. -/
def table_read (table : List String) (i : Nat) : Lookup :=
  match table[i]? with
  | some s => Lookup.label s
  | none => Lookup.overread

/-! ## Checksum (`crc8`) -/

/-- The loop of `crc8`: `u8 crc = 0; for (i = 0; i < size; i++) crc += data[i];`
with the 8-bit wrap-around of every addition. -/
def crc8_loop (data : List Nat) (size : Nat) : Nat :=
  (List.range size).foldl (fun crc i => (crc + byte data i) % 256) 0

/-- The function `crc8(data, size)`: `return (0x100 - crc) & 0xff;`. -/
def crc8 (data : List Nat) (size : Nat) : Nat :=
  (0x100 - crc8_loop data size) &&& 0xff

/-! ## Command names (`cmd`) -/

/-- The function `cmd(key)`: the first switch returns the name of three literal
keys; the second switch names `key & 0x7fff`, and `sprintf` puts "read" or "set"
before it according to bit `0x8000`. -/
def cmd (key : Nat) : String :=
  if key = set_addr then "set_addr"
  else if key = reset then "reset"
  else if key = response then "response"
  else
    let k := key &&& 0x7fff
    let name :=
      if k = timing then "timing"
      else if k = pattern then "pattern"
      else if k = colorspace then "colorspace"
      else if k = deepcolor then "deepcolor"
      else if k = hdcp then "hdcp"
      else if k = output_type then "output_type"
      else if k = audio_sampling then "audio_sampling"
      else if k = audio_width then "audio_width"
      else if k = audio_channel then "audio_channel"
      else if k = user_timing then "user_defined_timing"
      else if k = sink_edid then "sink_edid"
      else if k = output_power then "output_power"
      else "unk"
    (if key &&& 0x8000 ≠ 0 then "read" else "set") ++ " " ++ name

/-! ## The decoder (`parse_packet`) -/

/-- One command-specific line printed by `parse_packet`, with the values that
its `printf` receives. -/
inductive Line where
  | set_addr (group device : Nat)
  | read_user_timing (index : Nat)
  | read_native_timing
  | read_output_status
  | read_sink_edid (output_port : Nat)
  | read_hpd_status (high : Bool) (value : Nat)
  | read_address (group device : Nat)
  | response (name : String) (_cmd : Nat) (status : Lookup)
  | param (name : String) (label : Lookup) (value : Nat)
  | set_user_timing (index : Nat)
  | sink_edid (index : Nat)
  | output_power (standby : Bool) (value : Nat)
  deriving DecidableEq, Repr

/-- The second switch of `parse_packet`, on `key & 0x7fff`; `d` is `buf + 9`. -/
def parse_param (k : Nat) (d : Nat → Nat) : List Line :=
  if k = timing then [Line.param "timing" (table_read timings (d 0)) (d 0)]
  else if k = pattern then [Line.param "pattern" (table_read patterns (d 0)) (d 0)]
  else if k = colorspace then [Line.param "colorspace" (table_read colorspaces (d 0)) (d 0)]
  else if k = deepcolor then [Line.param "deepcolor" (table_read deepcolors (d 0)) (d 0)]
  else if k = hdcp then [Line.param "hdcp" (table_read enables (d 0)) (d 0)]
  else if k = output_type then
    [Line.param "output_type" (table_read output_types (d 0)) (d 0)]
  else if k = audio_sampling then
    [Line.param "audio_samplerate" (table_read audio_samplerates (d 0)) (d 0)]
  else if k = audio_width then
    [Line.param "audio_width" (table_read audio_widths (d 0)) (d 0)]
  else if k = audio_source then
    [Line.param "audio_external_source" (table_read enables (d 0)) (d 0)]
  else if k = audio_channel then
    [Line.param "audio_channels" (table_read audio_channels (d 0)) (d 0)]
  else if k = user_timing then [Line.set_user_timing (d 0)]
  else if k = sink_edid then [Line.sink_edid (d 0)]
  else if k = output_power then [Line.output_power (decide (d 0 ≠ 0)) (d 0)]
  else []

/-- The two switches of `parse_packet` on the key.  A case of the first switch
that ends in `break` goes on to the second switch; the case `0xffff` returns.
In that case `u16 _cmd = d[1] >> 8 | d[0]`, and since the `if` before
`s = responses[d[2]]` has the empty statement `;` as its body, the table is read
whatever `d[2]` is. -/
def parse_lines (key : Nat) (d : Nat → Nat) : List Line :=
  let second := parse_param (key &&& 0x7fff) d
  if key = set_addr then Line.set_addr (d 0) (d 1) :: second
  else if key = reset then second
  else if key = user_timing then Line.read_user_timing (d 0) :: second
  else if key = read_native_timing then Line.read_native_timing :: second
  else if key = read_output_status then Line.read_output_status :: second
  else if key = sink_edid then Line.read_sink_edid (d 0) :: second
  else if key = read_hpd_status then Line.read_hpd_status (decide (d 0 ≠ 0)) (d 0) :: second
  else if key = read_address then Line.read_address (d 0) (d 1) :: second
  else if key = 0xffff then
    let _cmd := ((d 1 >>> 8) ||| d 0) % 65536
    [Line.response (cmd _cmd) _cmd (table_read responses (d 2))]
  else second

/-- Everything `parse_packet` prints after the hex dump. -/
structure Report where
  dir : String
  dev_id : Nat
  command : String
  key : Nat
  len : Nat
  grp_addr : Nat
  dev_addr : Nat
  crc : Nat
  crc_seen : Nat
  crc_ok : Bool
  data_bytes : Int
  lines : List Line
  deriving DecidableEq, Repr

/-- The function `parse_packet(buf, size)`.  The header is read through the packed
`struct header`: `dir` at offset 0, `dev_id` at 1-2 (in the byte order of a
little-endian host), `len_lsb` 3, `len_msb` 4, `grp_addr` 5, `dev_addr` 6,
`cmd_lsb` 7, `cmd_msb` 8.  There is no comparison of `size` with the declared
length and no error return. -/
def parse_packet (buf : List Nat) (size : Nat) : Report :=
  let d := fun i => byte buf (9 + i)
  let len := (byte buf 4 <<< 8) ||| byte buf 3
  let key := (byte buf 8 <<< 8) ||| byte buf 7
  let dir :=
    if byte buf 0 = 0xaa then "PC->MCU"
    else if byte buf 0 = 0xab then "MCU->PC"
    else "unk"
  let crc := crc8 buf (size - 1)
  { dir := dir
    dev_id := (byte buf 2 <<< 8) ||| byte buf 1
    command := cmd (key % 65536)
    key := key
    len := len
    grp_addr := byte buf 5
    dev_addr := byte buf 6
    crc := crc
    crc_seen := byte buf (size - 1)
    crc_ok := decide (crc = byte buf (size - 1))
    data_bytes := (len : Int) - 5
    lines := parse_lines key d }

/-- The payload the report's "data: N bytes" line refers to: the `len - 5` bytes
from `d = buf + 9` on. -/
def payload (buf : List Nat) (size : Nat) : List Nat :=
  (buf.drop 9).take (parse_packet buf size).data_bytes.toNat

/-! ## The encoder (`send_command`) -/

deriving instance DecidableEq for Except

/-- How `send_command` can end without a frame: its own `return -EINVAL`, or a
store outside the 256-byte array `buf` (which C does not check). -/
inductive SendFault where
  | EINVAL
  | overflow
  deriving DecidableEq, Repr

/-- The store `buf[i] = v`. -/
def poke (buf : List Nat) (i v : Nat) : Except SendFault (List Nat) :=
  if i < buf.length then Except.ok (buf.set i v) else Except.error SendFault.overflow

/-- The call `memcpy(buf + off, src, n)`. -/
def memcpy (buf : List Nat) (off : Nat) (src : List Nat) (n : Nat) :
    Except SendFault (List Nat) :=
  if off + n ≤ buf.length then Except.ok (buf.take off ++ src.take n ++ buf.drop (off + n))
  else Except.error SendFault.overflow

/-- The function `send_command(fd, key, data, size)` up to its `write`: the result
is the `sz` bytes of `buf` handed to `parse_packet` and to `write`.  `stack` is the
content of the uninitialised local `u8 buf[256]` on entry, `data` the `size` bytes
the argument points to, `sizeof(struct header)` is 9, and `&p->data` is `buf + 9`. -/
def send_command (stack : List Nat) (key : Nat) (data : List Nat) :
    Except SendFault (List Nat) :=
  let size := data.length
  if size + 9 > 256 then Except.error SendFault.EINVAL
  else do
    let buf ← poke stack 0 0xaa
    let buf ← poke buf 1 0
    let buf ← poke buf 2 0
    let buf ← poke buf 8 ((key >>> 8) % 256)
    let buf ← poke buf 7 (key &&& 0xff)
    let buf ← poke buf 4 (((size + 5) >>> 8) % 256)
    let buf ← poke buf 3 ((size + 5) &&& 0xff)
    let buf ← poke buf 5 0
    let buf ← poke buf 6 0
    let buf ← memcpy buf 9 data size
    let sz := size + 9 + 1
    let buf ← poke buf (sz - 1) (crc8 buf (sz - 1))
    Except.ok (buf.take sz)

/-! ## Option values in `main` -/

/-- The options of `main` that select a value of a table. -/
inductive Opt where
  | channels | source | colorspace | pattern | samplerate | timing | width
  deriving DecidableEq, Repr

/-- The command key the option's branch assigns to `cmd`. -/
def Opt.cmd : Opt → Nat
  | Opt.channels => audio_channel
  | Opt.source => audio_source
  | Opt.colorspace => Sg4k.colorspace
  | Opt.pattern => Sg4k.pattern
  | Opt.samplerate => audio_sampling
  | Opt.timing => Sg4k.timing
  | Opt.width => audio_width

/-- The table the option's branch compares with and reads. -/
def Opt.table : Opt → List String
  | Opt.channels => audio_channels
  | Opt.source => enables
  | Opt.colorspace => colorspaces
  | Opt.pattern => patterns
  | Opt.samplerate => audio_samplerates
  | Opt.timing => timings
  | Opt.width => audio_widths

/-- How an option's branch of `main` ends: `return -2` after "invalid index", or
the command and value kept for `send_command`, with the label it printed. -/
inductive OptResult where
  | invalid_index (data : Nat)
  | selected (cmd data : Nat) (label : Lookup)
  deriving DecidableEq, Repr

/-- One value option in `main`, `n` being `atoi(optarg)`:
`data = atoi(optarg); if (data > ARRAY_SIZE(table)) return -2; printf(table[data])`,
where `data` is a `u8`. -/
def main_option (o : Opt) (n : Int) : OptResult :=
  let data := (n % 256).toNat
  if data > o.table.length then OptResult.invalid_index data
  else OptResult.selected o.cmd data (table_read o.table data)

/-! ## The decoder of the specification -/

/-- The failure of the specification's `decode`. -/
inductive DecodeError where
  | MalformedPacket
  deriving DecidableEq, Repr

/-- The `decode` of the specification, in its words: it fails with
`MalformedPacket` when the buffer is shorter than the declared total length (the
length field of bytes 3-4, low byte first, plus 5) and otherwise returns the
structured packet. -/
def decode_spec (bytes : List Nat) : Except DecodeError Report :=
  if bytes.length < byte bytes 3 + 256 * byte bytes 4 + 5 then
    Except.error DecodeError.MalformedPacket
  else Except.ok (parse_packet bytes bytes.length)

/-! ## The reader (`read_response`) -/

/-- The constant `RESPONSE_TIMEOUT`, in seconds. -/
def RESPONSE_TIMEOUT : Int := 1

/-- The C expression `p->h.len_msb << 8 | p->h.len_lsb` on the array `buf`. -/
def header_len (buf : List Nat) : Nat := (byte buf 4 <<< 8) ||| byte buf 3

/-- What the serial line does by one call of `read`: the call fails (`rz < 0`), or
the bytes `bs` (none, for the empty list) have arrived since the call before. -/
inductive ReadEvent where
  | error
  | bytes (bs : List Nat)
  deriving DecidableEq, Repr

/-- The bytes an event brings. -/
def ReadEvent.data : ReadEvent → List Nat
  | ReadEvent.error => []
  | ReadEvent.bytes bs => bs

/-- The surroundings of one call of `read_response`: `start` is the value of
`time(NULL)` on entry, `clock k` its value in the k-th evaluation of the loop
condition, and `line k` what the serial line does by the k-th call of `read`. -/
structure Env where
  start : Int
  clock : Nat → Int
  line : Nat → ReadEvent

/-- How `read_response` ends, with the number of calls of `read` it made: the
loop condition fails (`return 0`); a `read` fails (`perror`, `break`,
`return 0`); or `parse_packet(buf, len)` is called and the function returns -1
after "crc failed", or `rz` otherwise. -/
inductive Outcome where
  | timed_out (reads : Nat)
  | read_failed (reads : Nat)
  | crc_failed (buf : List Nat) (len : Nat) (reads : Nat)
  | complete (buf : List Nat) (len : Nat) (rz : Nat) (reads : Nat)
  deriving DecidableEq, Repr

/-- The value `read_response` returns. -/
def Outcome.ret : Outcome → Int
  | Outcome.timed_out _ => 0
  | Outcome.read_failed _ => 0
  | Outcome.crc_failed _ _ _ => -1
  | Outcome.complete _ _ rz _ => rz

/-- The arguments of the call `parse_packet(buf, len)`, if it is made. -/
def Outcome.decoded : Outcome → Option (List Nat × Nat)
  | Outcome.timed_out _ => none
  | Outcome.read_failed _ => none
  | Outcome.crc_failed buf len _ => some (buf, len)
  | Outcome.complete buf len _ _ => some (buf, len)

/-- The number of calls of `read`. -/
def Outcome.reads : Outcome → Nat
  | Outcome.timed_out n => n
  | Outcome.read_failed n => n
  | Outcome.crc_failed _ _ n => n
  | Outcome.complete _ _ _ n => n

/-- The array after `read` has stored the bytes `got` at `buf + len`. -/
def read_store (buf : List Nat) (len : Nat) (got : List Nat) : List Nat :=
  buf.take len ++ got ++ buf.drop (len + got.length)

/-- The end of the loop body, after `len += rz`, at the k-th call of `read`:
`if (len < 5) continue;`, then the test `len >= 5 + (len_msb << 8 | len_lsb)` with
the call `parse_packet(buf, len)` and the two returns.  The result is `none` when
the loop goes on. -/
def check_frame (buf : List Nat) (len rz k : Nat) : Option Outcome :=
  if len < 5 then none
  else if len ≥ 5 + header_len buf then
    if crc8 buf (len - 1) ≠ byte buf (len - 1) then some (Outcome.crc_failed buf len k)
    else some (Outcome.complete buf len rz k)
  else none

/-- The loop of `read_response` from its k-th iteration on, with the array `buf`,
the count `len` and the bytes `pending` that have arrived and are not yet read.
`read(fd, buf + len, sizeof(buf) - len)` takes at most `256 - len` of the bytes
at hand and leaves the others for the next call.  `fuel` bounds the number of
iterations; the result is `none` when it is used up. -/
def read_loop (env : Env) : Nat → Nat → List Nat → Nat → List Nat → Option Outcome
  | 0, _, _, _, _ => none
  | fuel + 1, k, buf, len, pending =>
    if env.clock k - env.start < RESPONSE_TIMEOUT then
      match env.line k with
      | ReadEvent.error => some (Outcome.read_failed (k + 1))
      | ReadEvent.bytes bs =>
        let got := (pending ++ bs).take (256 - len)
        let left := (pending ++ bs).drop (256 - len)
        if got.length = 0 then read_loop env fuel (k + 1) buf len left
        else
          match check_frame (read_store buf len got) (len + got.length) got.length (k + 1) with
          | some o => some o
          | none => read_loop env fuel (k + 1) (read_store buf len got) (len + got.length) left
    else some (Outcome.timed_out k)

/-- The function `read_response(fd)`; `stack` is the content of the uninitialised
local `u8 buf[256]` on entry. -/
def read_response (env : Env) (fuel : Nat) (stack : List Nat) : Option Outcome :=
  read_loop env fuel 0 stack 0 []

/-- The bytes that arrive by the calls `k`, ..., `k + d - 1` of `read`. -/
def delivered (env : Env) : Nat → Nat → List Nat
  | _, 0 => []
  | k, d + 1 => (env.line k).data ++ delivered env (k + 1) d

/-- An environment in which the bytes `bs` arrive by the first call of `read`,
nothing arrives after, and the clock reaches the deadline at its n-th reading. -/
def burst (bs : List Nat) (n : Nat) : Env :=
  { start := 0
    clock := fun k => if k < n then 0 else 1
    line := fun k => if k = 0 then ReadEvent.bytes bs else ReadEvent.bytes [] }

/-- An environment in which every call of `read` fails and the clock stands
still. -/
def broken_line : Env :=
  { start := 0
    clock := fun _ => 0
    line := fun _ => ReadEvent.error }

/-! ## Lemmas on the checksum -/

theorem crc8_loop_succ (data : List Nat) (n : Nat) :
    crc8_loop data (n + 1) = (crc8_loop data n + byte data n) % 256 := by
  simp [crc8_loop, List.range_succ, List.foldl_append]

theorem take_succ_sum (data : List Nat) (n : Nat) (h : n < data.length) :
    (data.take (n + 1)).sum = (data.take n).sum + byte data n := by
  rw [List.take_succ, List.getElem?_eq_getElem h, byte, List.getD_eq_getElem _ _ h,
    Option.toList, List.sum_append, List.sum_singleton]

/-- The wrap-around accumulator is the unbounded sum of the bytes read, modulo 256. -/
theorem crc8_loop_eq_sum (data : List Nat) :
    ∀ n, n ≤ data.length → crc8_loop data n = (data.take n).sum % 256
  | 0, _ => by simp [crc8_loop]
  | n + 1, h => by
    rw [crc8_loop_succ, crc8_loop_eq_sum data n (by omega), take_succ_sum data n (by omega)]
    omega

theorem crc8_eq_sum (data : List Nat) (n : Nat) (h : n ≤ data.length) :
    crc8 data n = (256 - (data.take n).sum % 256) % 256 := by
  have h255 : (0xff : Nat) = 2 ^ 8 - 1 := by norm_num
  rw [crc8, crc8_loop_eq_sum data n h, h255, Nat.and_pow_two_sub_one_eq_mod]

theorem crc8_lt (data : List Nat) (n : Nat) : crc8 data n < 256 := by
  have h255 : (0xff : Nat) = 2 ^ 8 - 1 := by norm_num
  rw [crc8, h255, Nat.and_pow_two_sub_one_eq_mod]
  exact Nat.mod_lt _ (by norm_num)

/-! ## Lemmas on the encoder -/

theorem set_at_length (p : List Nat) (x c : Nat) (t : List Nat) (i : Nat) (hi : i = p.length) :
    (p ++ x :: t).set i c = p ++ c :: t := by
  subst hi
  simp

theorem take_succ_length (p : List Nat) (c : Nat) (t : List Nat) (i : Nat)
    (hi : i = p.length + 1) : (p ++ c :: t).take i = p ++ [c] := by
  subst hi
  simp [List.take_append_eq_append_take]

theorem crc8_append (p t : List Nat) (i : Nat) (hi : i = p.length) :
    crc8 (p ++ t) i = crc8 p i := by
  subst hi
  rw [crc8_eq_sum _ _ (by simp), crc8_eq_sum _ _ (Nat.le_refl _)]
  simp

theorem drop_eq_cons (l : List Nat) (n : Nat) (h : n < l.length) :
    ∃ x t, l.drop n = x :: t := by
  cases hd : l.drop n with
  | nil =>
    have := congrArg List.length hd
    simp at this
    omega
  | cons x t => exact ⟨x, t, rfl⟩

theorem send_command_eq (stack : List Nat) (key : Nat) (data : List Nat)
    (hs : stack.length = 256) (hn : data.length ≤ 246) :
    send_command stack key data = Except.ok
      ([0xaa, 0, 0, (data.length + 5) &&& 0xff, ((data.length + 5) >>> 8) % 256, 0, 0,
        key &&& 0xff, (key >>> 8) % 256] ++ data ++
        [crc8 ([0xaa, 0, 0, (data.length + 5) &&& 0xff, ((data.length + 5) >>> 8) % 256, 0, 0,
        key &&& 0xff, (key >>> 8) % 256] ++ data) (data.length + 9)]) := by
  rcases stack with _ | ⟨a0, _ | ⟨a1, _ | ⟨a2, _ | ⟨a3, _ | ⟨a4, _ | ⟨a5, _ | ⟨a6, _ | ⟨a7, _ | ⟨a8, rest⟩⟩⟩⟩⟩⟩⟩⟩⟩ <;>
    simp at hs
  obtain ⟨x, t, hx⟩ := drop_eq_cons rest data.length (by omega)
  have h1 : ¬ (data.length + 9 > 256) := by omega
  have h2 : 9 + data.length ≤ rest.length + 1 + 1 + 1 + 1 + 1 + 1 + 1 + 1 + 1 := by omega
  simp only [send_command, h1, if_false]
  simp only [poke, memcpy, bind, Except.bind, List.length_cons, List.set_cons_zero,
    List.set_cons_succ, Nat.zero_lt_succ, if_true, Nat.lt_add_left_iff_pos, Nat.succ_lt_succ_iff,
    h2, List.take_succ_cons, List.take_zero, List.take_length, Nat.add_comm 9 data.length,
    List.drop_succ_cons, hx, List.cons_append, List.nil_append, List.singleton_append]
  have hv : ∀ A B C D : Nat,
      (170 :: 0 :: 0 :: A :: B :: 0 :: 0 :: C :: D :: (data ++ x :: t)) =
        (170 :: 0 :: 0 :: A :: B :: 0 :: 0 :: C :: D :: data) ++ x :: t := by
    intros; simp
  have hw : ∀ (A B C D c : Nat),
      (170 :: 0 :: 0 :: A :: B :: 0 :: 0 :: C :: D :: (data ++ [c])) =
        (170 :: 0 :: 0 :: A :: B :: 0 :: 0 :: C :: D :: data) ++ [c] := by
    intros; simp
  rw [hv, hw]
  generalize hp : (170 :: 0 :: 0 :: (data.length + 5 &&& 255) ::
    (data.length + 5) >>> 8 % 256 :: 0 :: 0 :: (key &&& 255) :: key >>> 8 % 256 :: data) = p
  have hpl : p.length = data.length + 9 := by rw [← hp]; simp
  have h3 : data.length + 9 ≤ rest.length + 1 + 1 + 1 + 1 + 1 + 1 + 1 + 1 + 1 := by omega
  have h4 : data.length + 9 < (p ++ x :: t).length := by simp [hpl]
  simp only [h3, if_true, Nat.add_sub_cancel, h4]
  rw [set_at_length p x _ t _ hpl.symm, take_succ_length p _ t _ (by rw [hpl]),
    crc8_append p _ _ hpl.symm]

/-! ## Lemmas on bit operations and on the decoder -/

theorem land_ff (x : Nat) : x &&& 0xff = x % 256 := by
  have h255 : (0xff : Nat) = 2 ^ 8 - 1 := by norm_num
  rw [h255, Nat.and_pow_two_sub_one_eq_mod]

theorem shr_8 (x : Nat) : x >>> 8 = x / 256 := by
  rw [Nat.shiftRight_eq_div_pow]

theorem shl_8_or (a b : Nat) (hb : b < 256) : (a <<< 8) ||| b = a * 256 + b := by
  have h := Nat.mul_add_lt_is_or (show b < 2 ^ 8 by simpa using hb) a
  rw [Nat.shiftLeft_eq, Nat.mul_comm a (2 ^ 8), ← h]

/-- The frame of `send_command` in arithmetic form: the nine header bytes, the
payload and the checksum byte; the key's low byte is at offset 7, its high byte
at offset 8. -/
theorem send_command_frame (stack : List Nat) (key : Nat) (data : List Nat)
    (hs : stack.length = 256) (hk : key < 65536) (hn : data.length ≤ 246) :
    send_command stack key data = Except.ok
      ([0xaa, 0, 0, data.length + 5, 0, 0, 0, key % 256, key / 256] ++ data ++
        [crc8 ([0xaa, 0, 0, data.length + 5, 0, 0, 0, key % 256, key / 256] ++ data)
          (data.length + 9)]) := by
  rw [send_command_eq stack key data hs hn, land_ff, land_ff, shr_8, shr_8]
  have h1 : (data.length + 5) % 256 = data.length + 5 := Nat.mod_eq_of_lt (by omega)
  have h2 : (data.length + 5) / 256 % 256 = 0 := by omega
  have h3 : key / 256 % 256 = key / 256 := Nat.mod_eq_of_lt (by omega)
  rw [h1, h2, h3]

theorem byte_at_length (p : List Nat) (c : Nat) (t : List Nat) (i : Nat) (hi : i = p.length) :
    byte (p ++ c :: t) i = c := by
  subst hi
  rw [byte, List.getD_eq_getElem?_getD, List.getElem?_append_right (Nat.le_refl _)]
  simp

/-- The fields `parse_packet` extracts from a frame of the encoder's layout that
is followed in the array by any bytes `rest`. -/
theorem parse_packet_frame (key : Nat) (data rest : List Nat) (c : Nat)
    (hn : data.length ≤ 246) :
    let buf := [0xaa, 0, 0, data.length + 5, 0, 0, 0, key % 256, key / 256] ++ data ++ [c] ++ rest
    (parse_packet buf (data.length + 10)).key = key ∧
    (parse_packet buf (data.length + 10)).len = data.length + 5 ∧
    (parse_packet buf (data.length + 10)).crc_seen = c ∧
    (parse_packet buf (data.length + 10)).crc =
      crc8 ([0xaa, 0, 0, data.length + 5, 0, 0, 0, key % 256, key / 256] ++ data)
        (data.length + 9) ∧
    payload buf (data.length + 10) = data := by
  intro buf
  have h9 : data.length + 10 - 1 = data.length + 9 := by omega
  have hlen : (parse_packet buf (data.length + 10)).len = data.length + 5 := by
    simp [parse_packet, buf, byte]
  refine ⟨?_, hlen, ?_, ?_, ?_⟩
  · simp only [parse_packet, buf, byte]
    simp
    rw [shl_8_or _ _ (Nat.mod_lt _ (by norm_num))]
    omega
  · have hb : buf = ([0xaa, 0, 0, data.length + 5, 0, 0, 0, key % 256, key / 256] ++ data) ++
        c :: rest := by simp [buf]
    simp only [parse_packet, h9]
    rw [hb, byte_at_length _ _ _ _ (by simp)]
  · have hb : buf = ([0xaa, 0, 0, data.length + 5, 0, 0, 0, key % 256, key / 256] ++ data) ++
        c :: rest := by simp [buf]
    simp only [parse_packet, h9]
    rw [hb, crc8_append _ _ _ (by simp)]
  · have hd : (parse_packet buf (data.length + 10)).data_bytes = (data.length : Int) := by
      have : (parse_packet buf (data.length + 10)).data_bytes =
          ((parse_packet buf (data.length + 10)).len : Int) - 5 := rfl
      rw [this, hlen]
      push_cast
      ring
    rw [payload, hd]
    simp [buf]

/-! ## Claims -/

/-- C1: for every byte sequence (of any length, the empty one included) `crc8`
returns `(256 - (sum of the bytes mod 256)) mod 256`; it returns 0 whenever the
byte sum is a multiple of 256; and the 8-bit wrap-around accumulator equals the
unbounded sum taken mod 256. -/
theorem crc8_spec (bytes : List Nat) :
    crc8 bytes bytes.length = (256 - bytes.sum % 256) % 256 ∧
    (bytes.sum % 256 = 0 → crc8 bytes bytes.length = 0) ∧
    crc8_loop bytes bytes.length = bytes.sum % 256 := by
  have h := crc8_eq_sum bytes bytes.length (Nat.le_refl _)
  have hl := crc8_loop_eq_sum bytes bytes.length (Nat.le_refl _)
  rw [List.take_length] at h hl
  refine ⟨h, ?_, hl⟩
  intro h0
  rw [h, h0]

theorem crc8_spec_witness :
    crc8 [0x80, 0x7f, 0x01] [0x80, 0x7f, 0x01].length =
      (256 - [0x80, 0x7f, 0x01].sum % 256) % 256 ∧
    [0x80, 0x7f, 0x01].sum % 256 = 0 ∧
    crc8 [0x80, 0x7f, 0x01] [0x80, 0x7f, 0x01].length = 0 ∧
    crc8_loop [0x80, 0x7f, 0x01] [0x80, 0x7f, 0x01].length = [0x80, 0x7f, 0x01].sum % 256 :=
  ⟨(crc8_spec [0x80, 0x7f, 0x01]).1, by decide,
    (crc8_spec [0x80, 0x7f, 0x01]).2.1 (by decide), (crc8_spec [0x80, 0x7f, 0x01]).2.2⟩


theorem crc_ok_eq (buf : List Nat) (size : Nat) :
    (parse_packet buf size).crc_ok =
      decide ((parse_packet buf size).crc = (parse_packet buf size).crc_seen) := rfl

/-- C2: round trip.  For every 16-bit key and every payload of at most 246 bytes,
`send_command` builds a frame, and `parse_packet` on that frame (whatever bytes
follow it in the array) extracts the same key, a payload of declared length - 5
bytes from offset 9 that equals the original, and a checksum comparison that
passes. -/
theorem round_trip (stack : List Nat) (key : Nat) (data : List Nat)
    (hs : stack.length = 256) (hk : key < 65536) (hn : data.length ≤ 246) :
    ∃ frame, send_command stack key data = Except.ok frame ∧
      ∀ rest : List Nat,
        (parse_packet (frame ++ rest) frame.length).key = key ∧
        (parse_packet (frame ++ rest) frame.length).data_bytes = data.length ∧
        payload (frame ++ rest) frame.length = data ∧
        (parse_packet (frame ++ rest) frame.length).crc_ok = true := by
  refine ⟨_, send_command_frame stack key data hs hk hn, ?_⟩
  intro rest
  have hl : ([0xaa, 0, 0, data.length + 5, 0, 0, 0, key % 256, key / 256] ++ data ++
      [crc8 ([0xaa, 0, 0, data.length + 5, 0, 0, 0, key % 256, key / 256] ++ data)
        (data.length + 9)]).length = data.length + 10 := by
    simp
  rw [hl]
  obtain ⟨h1, h2, h3, h4, h5⟩ := parse_packet_frame key data rest
    (crc8 ([0xaa, 0, 0, data.length + 5, 0, 0, 0, key % 256, key / 256] ++ data)
      (data.length + 9)) hn
  refine ⟨h1, ?_, h5, ?_⟩
  · have : (parse_packet ([0xaa, 0, 0, data.length + 5, 0, 0, 0, key % 256, key / 256] ++ data ++
      [crc8 ([0xaa, 0, 0, data.length + 5, 0, 0, 0, key % 256, key / 256] ++ data)
        (data.length + 9)] ++ rest) (data.length + 10)).data_bytes =
        ((parse_packet ([0xaa, 0, 0, data.length + 5, 0, 0, 0, key % 256, key / 256] ++ data ++
      [crc8 ([0xaa, 0, 0, data.length + 5, 0, 0, 0, key % 256, key / 256] ++ data)
        (data.length + 9)] ++ rest) (data.length + 10)).len : Int) - 5 := rfl
    rw [this, h2]
    push_cast
    ring
  · rw [crc_ok_eq, h3, h4]
    simp

theorem round_trip_witness :
    (List.replicate 256 0).length = 256 ∧ 0x0062 < 65536 ∧ [0x03].length ≤ 246 ∧
    ∃ frame, send_command (List.replicate 256 0) 0x0062 [0x03] = Except.ok frame ∧
      ∀ rest : List Nat,
        (parse_packet (frame ++ rest) frame.length).key = 0x0062 ∧
        (parse_packet (frame ++ rest) frame.length).data_bytes = [0x03].length ∧
        payload (frame ++ rest) frame.length = [0x03] ∧
        (parse_packet (frame ++ rest) frame.length).crc_ok = true :=
  ⟨List.length_replicate _ _, by decide, by decide,
    round_trip (List.replicate 256 0) 0x0062 [0x03] (List.length_replicate _ _) (by decide)
      (by decide)⟩

/-- C3 as stated fails: the frame for key 0x0062 and payload [0x03] is not
AA 00 00 06 00 00 00 00 62 03 EB, it is AA 00 00 06 00 00 00 62 00 03 EB. -/
theorem wire_layout_counterexample :
    send_command (List.replicate 256 0) 0x0062 [0x03] ≠
        Except.ok [0xAA, 0x00, 0x00, 0x06, 0x00, 0x00, 0x00, 0x00, 0x62, 0x03, 0xEB] ∧
    send_command (List.replicate 256 0) 0x0062 [0x03] =
        Except.ok [0xAA, 0x00, 0x00, 0x06, 0x00, 0x00, 0x00, 0x62, 0x00, 0x03, 0xEB] := by
  decide


/-- C3 (amended): for every 16-bit key and every payload `p` of length n <= 246
the frame built by `send_command` is exactly the bytes 0xAA, 0x00, 0x00, n+5, 0x00,
0x00, 0x00, key mod 256, key div 256, followed by `p`, followed by the checksum of
all of these: the key's low byte is at offset 7 and its high byte at offset 8. -/
theorem wire_layout (stack : List Nat) (key : Nat) (data : List Nat)
    (hs : stack.length = 256) (hk : key < 65536) (hn : data.length ≤ 246) :
    send_command stack key data = Except.ok
      ([0xAA, 0x00, 0x00, (data.length + 5) % 256, (data.length + 5) / 256, 0x00, 0x00,
          key % 256, key / 256] ++ data ++
        [crc8 ([0xAA, 0x00, 0x00, (data.length + 5) % 256, (data.length + 5) / 256, 0x00, 0x00,
          key % 256, key / 256] ++ data) (data.length + 9)]) := by
  have h1 : (data.length + 5) % 256 = data.length + 5 := Nat.mod_eq_of_lt (by omega)
  have h2 : (data.length + 5) / 256 = 0 := by omega
  rw [h1, h2]
  exact send_command_frame stack key data hs hk hn

theorem wire_layout_witness :
    (List.replicate 256 0).length = 256 ∧ 0x0062 < 65536 ∧ [0x03].length ≤ 246 ∧
    send_command (List.replicate 256 0) 0x0062 [0x03] = Except.ok
      ([0xAA, 0x00, 0x00, ([0x03].length + 5) % 256, ([0x03].length + 5) / 256, 0x00, 0x00,
          0x0062 % 256, 0x0062 / 256] ++ [0x03] ++
        [crc8 ([0xAA, 0x00, 0x00, ([0x03].length + 5) % 256, ([0x03].length + 5) / 256, 0x00,
          0x00, 0x0062 % 256, 0x0062 / 256] ++ [0x03]) ([0x03].length + 9)]) :=
  ⟨List.length_replicate _ _, by decide, by decide,
    wire_layout (List.replicate 256 0) 0x0062 [0x03] (List.length_replicate _ _) (by decide)
      (by decide)⟩

/-- C4: length consistency.  For every key and every payload of length n <= 246
the length field of the frame built by `send_command` (byte 3 as low byte, byte 4
as high byte), which is also the length `parse_packet` reads from it, equals
n + 5, and the frame has n + 10 bytes, that is the length field plus 5. -/
theorem length_consistency (stack : List Nat) (key : Nat) (data : List Nat)
    (hs : stack.length = 256) (hk : key < 65536) (hn : data.length ≤ 246) :
    ∃ frame, send_command stack key data = Except.ok frame ∧
      byte frame 3 + 256 * byte frame 4 = data.length + 5 ∧
      (parse_packet frame frame.length).len = data.length + 5 ∧
      frame.length = data.length + 10 ∧
      frame.length = (byte frame 3 + 256 * byte frame 4) + 5 := by
  refine ⟨_, send_command_frame stack key data hs hk hn, ?_⟩
  have hl : ([0xaa, 0, 0, data.length + 5, 0, 0, 0, key % 256, key / 256] ++ data ++
      [crc8 ([0xaa, 0, 0, data.length + 5, 0, 0, 0, key % 256, key / 256] ++ data)
        (data.length + 9)]).length = data.length + 10 := by
    simp
  have hp := (parse_packet_frame key data []
    (crc8 ([0xaa, 0, 0, data.length + 5, 0, 0, 0, key % 256, key / 256] ++ data)
      (data.length + 9)) hn).2.1
  rw [List.append_nil] at hp
  rw [hl]
  refine ⟨by simp [byte], hp, rfl, by simp [byte]⟩

theorem length_consistency_witness :
    (List.replicate 256 0).length = 256 ∧ 0x8061 < 65536 ∧ [0x01, 0x02].length ≤ 246 ∧
    ∃ frame, send_command (List.replicate 256 0) 0x8061 [0x01, 0x02] = Except.ok frame ∧
      byte frame 3 + 256 * byte frame 4 = [0x01, 0x02].length + 5 ∧
      (parse_packet frame frame.length).len = [0x01, 0x02].length + 5 ∧
      frame.length = [0x01, 0x02].length + 10 ∧
      frame.length = (byte frame 3 + 256 * byte frame 4) + 5 :=
  ⟨List.length_replicate _ _, by decide, by decide,
    length_consistency (List.replicate 256 0) 0x8061 [0x01, 0x02] (List.length_replicate _ _)
      (by decide) (by decide)⟩

theorem sum_of_checksummed (p : List Nat) : (p ++ [crc8 p p.length]).sum % 256 = 0 := by
  rw [crc8_eq_sum p p.length (Nat.le_refl _), List.take_length, List.sum_append,
    List.sum_singleton]
  omega

/-- C5: checksum law.  Every non-empty byte sequence whose last byte equals `crc8`
of the bytes before it has a byte sum congruent to 0 mod 256; and every frame
built by `send_command` (any key, payload of at most 246 bytes) has header,
payload and checksum bytes summing to 0 mod 256. -/
theorem checksum_law :
    (∀ B : List Nat, B ≠ [] → byte B (B.length - 1) = crc8 B (B.length - 1) →
      B.sum % 256 = 0) ∧
    (∀ (stack : List Nat) (key : Nat) (data : List Nat),
      stack.length = 256 → data.length ≤ 246 →
      ∃ frame, send_command stack key data = Except.ok frame ∧ frame.sum % 256 = 0) := by
  constructor
  · intro B hB hlast
    have hpos : 0 < B.length := List.length_pos.mpr hB
    have hs := take_succ_sum B (B.length - 1) (by omega)
    have hc := crc8_eq_sum B (B.length - 1) (by omega)
    rw [Nat.sub_add_cancel hpos, List.take_length] at hs
    rw [hs, hlast, hc]
    omega
  · intro stack key data hs hn
    refine ⟨_, send_command_eq stack key data hs hn, ?_⟩
    have h := sum_of_checksummed ([0xaa, 0, 0, (data.length + 5) &&& 0xff,
      ((data.length + 5) >>> 8) % 256, 0, 0, key &&& 0xff, (key >>> 8) % 256] ++ data)
    have hl : ([0xaa, 0, 0, (data.length + 5) &&& 0xff,
      ((data.length + 5) >>> 8) % 256, 0, 0, key &&& 0xff, (key >>> 8) % 256] ++ data).length =
        data.length + 9 := by simp
    rw [hl] at h
    exact h

theorem checksum_law_witness :
    ([0x10, 0x20, 0xd0] ≠ [] ∧ byte [0x10, 0x20, 0xd0] 2 = crc8 [0x10, 0x20, 0xd0] 2 ∧
      [0x10, 0x20, 0xd0].sum % 256 = 0) ∧
    ((List.replicate 256 0).length = 256 ∧ [0x03].length ≤ 246 ∧
      ∃ frame, send_command (List.replicate 256 0) 0x0062 [0x03] = Except.ok frame ∧
        frame.sum % 256 = 0) :=
  ⟨⟨by decide, by decide, checksum_law.1 [0x10, 0x20, 0xd0] (by decide) (by decide)⟩,
    ⟨List.length_replicate _ _, by decide,
      checksum_law.2 (List.replicate 256 0) 0x0062 [0x03] (List.length_replicate _ _)
        (by decide)⟩⟩


theorem byte_lt (buf : List Nat) (hb : ∀ b ∈ buf, b < 256) (i : Nat) : byte buf i < 256 := by
  rw [byte, List.getD_eq_getElem?_getD]
  cases h : buf[i]? with
  | none => simp
  | some b => exact hb b (List.getElem?_mem h)

/-- C6: a payload of 247 bytes is not rejected.  The guard `size + 9 > 256` lets
it pass, and the checksum store at index 247 + 9 = 256 falls outside the 256-byte
array; 248 bytes are rejected with `-EINVAL`, and 246 bytes give a frame of 256
bytes. -/
theorem send_command_247 :
    send_command (List.replicate 256 0) 0x0062 (List.replicate 247 0) =
      Except.error SendFault.overflow ∧
    send_command (List.replicate 256 0) 0x0062 (List.replicate 248 0) =
      Except.error SendFault.EINVAL ∧
    (send_command (List.replicate 256 0) 0x0062 (List.replicate 246 0)).map List.length =
      Except.ok 256 := by
  decide

/-- C7 as stated fails: a 9-byte buffer whose length field declares 6 (a total of
11 bytes) is shorter than its declared total, so that the specification's decoder
fails with `MalformedPacket`; `parse_packet` returns its report all the same. -/
theorem decode_malformed_counterexample :
    decode_spec [0xaa, 0, 0, 6, 0, 0, 0, 0x02, 0x78] ≠
      Except.ok (parse_packet [0xaa, 0, 0, 6, 0, 0, 0, 0x02, 0x78] 9) ∧
    decode_spec [0xaa, 0, 0, 6, 0, 0, 0, 0x02, 0x78] =
      Except.error DecodeError.MalformedPacket ∧
    parse_packet [0xaa, 0, 0, 6, 0, 0, 0, 0x02, 0x78] 9 =
      { dir := "PC->MCU", dev_id := 0, command := "reset", key := 0x7802, len := 6,
        grp_addr := 0, dev_addr := 0, crc := 0x4e, crc_seen := 0x78, crc_ok := false,
        data_bytes := 1, lines := [] } := by
  decide

/-- C7 (amended): `parse_packet` has no failure and never compares `size` with the
declared length.  For every buffer of bytes and every size from 1 to the
buffer's length, also one below the declared total, its report carries the
declared length (byte 3 low, byte 4 high), the key (byte 7 low, byte 8 high)
with its name, a direction label that is "PC->MCU", "MCU->PC" or "unk", and a
checksum flag that is set exactly when the first `size` bytes sum to 0 mod 256. -/
theorem parse_packet_no_length_check (buf : List Nat) (size : Nat)
    (hb : ∀ b ∈ buf, b < 256) (h1 : 1 ≤ size) (h2 : size ≤ buf.length) :
    (parse_packet buf size).len = byte buf 3 + 256 * byte buf 4 ∧
    (parse_packet buf size).key = byte buf 7 + 256 * byte buf 8 ∧
    (parse_packet buf size).command = cmd (parse_packet buf size).key ∧
    ((parse_packet buf size).dir = "PC->MCU" ∨ (parse_packet buf size).dir = "MCU->PC" ∨
      (parse_packet buf size).dir = "unk") ∧
    ((parse_packet buf size).crc_ok = true ↔ (buf.take size).sum % 256 = 0) := by
  have hlen : (parse_packet buf size).len = byte buf 3 + 256 * byte buf 4 := by
    show (byte buf 4 <<< 8) ||| byte buf 3 = _
    rw [shl_8_or _ _ (byte_lt buf hb 3)]
    omega
  have hkey : (parse_packet buf size).key = byte buf 7 + 256 * byte buf 8 := by
    show (byte buf 8 <<< 8) ||| byte buf 7 = _
    rw [shl_8_or _ _ (byte_lt buf hb 7)]
    omega
  refine ⟨hlen, hkey, ?_, ?_, ?_⟩
  · show cmd ((parse_packet buf size).key % 65536) = _
    rw [Nat.mod_eq_of_lt]
    rw [hkey]
    have := byte_lt buf hb 7
    have := byte_lt buf hb 8
    omega
  · show (ite _ _ _ = _ ∨ ite _ _ _ = _ ∨ ite _ _ _ = _)
    by_cases ha : byte buf 0 = 0xaa
    · simp [ha]
    · by_cases hb' : byte buf 0 = 0xab
      · simp [hb']
      · simp [ha, hb']
  · have hs := take_succ_sum buf (size - 1) (by omega)
    have hc := crc8_eq_sum buf (size - 1) (by omega)
    have hl := byte_lt buf hb (size - 1)
    rw [Nat.sub_add_cancel h1] at hs
    rw [crc_ok_eq]
    show decide (crc8 buf (size - 1) = byte buf (size - 1)) = true ↔ _
    rw [decide_eq_true_iff, hs, hc]
    omega

theorem parse_packet_no_length_check_witness :
    (∀ b ∈ [0xaa, 0, 0, 6, 0, 0, 0, 0x02, 0x78], b < 256) ∧ 1 ≤ 9 ∧
    9 ≤ [0xaa, 0, 0, 6, 0, 0, 0, 0x02, 0x78].length ∧
    (parse_packet [0xaa, 0, 0, 6, 0, 0, 0, 0x02, 0x78] 9).len =
      byte [0xaa, 0, 0, 6, 0, 0, 0, 0x02, 0x78] 3 +
        256 * byte [0xaa, 0, 0, 6, 0, 0, 0, 0x02, 0x78] 4 ∧
    (parse_packet [0xaa, 0, 0, 6, 0, 0, 0, 0x02, 0x78] 9).key =
      byte [0xaa, 0, 0, 6, 0, 0, 0, 0x02, 0x78] 7 +
        256 * byte [0xaa, 0, 0, 6, 0, 0, 0, 0x02, 0x78] 8 ∧
    (parse_packet [0xaa, 0, 0, 6, 0, 0, 0, 0x02, 0x78] 9).command =
      cmd (parse_packet [0xaa, 0, 0, 6, 0, 0, 0, 0x02, 0x78] 9).key ∧
    ((parse_packet [0xaa, 0, 0, 6, 0, 0, 0, 0x02, 0x78] 9).dir = "PC->MCU" ∨
      (parse_packet [0xaa, 0, 0, 6, 0, 0, 0, 0x02, 0x78] 9).dir = "MCU->PC" ∨
      (parse_packet [0xaa, 0, 0, 6, 0, 0, 0, 0x02, 0x78] 9).dir = "unk") ∧
    ((parse_packet [0xaa, 0, 0, 6, 0, 0, 0, 0x02, 0x78] 9).crc_ok = true ↔
      ([0xaa, 0, 0, 6, 0, 0, 0, 0x02, 0x78].take 9).sum % 256 = 0) :=
  ⟨by decide, by decide, by decide,
    parse_packet_no_length_check [0xaa, 0, 0, 6, 0, 0, 0, 0x02, 0x78] 9 (by decide) (by decide)
      (by decide)⟩


/-- C8: the check in `main` is `data > ARRAY_SIZE(table)`.  For each of the seven
value options a value equal to the table's length is not rejected: the branch
goes on to read the table at that index, one past its last entry.  The value
length - 1 is accepted within the table and length + 1 is rejected. -/
theorem main_option_at_table_length (o : Opt) :
    main_option o o.table.length =
      OptResult.selected o.cmd o.table.length Lookup.overread ∧
    main_option o (o.table.length - 1 : Nat) =
      OptResult.selected o.cmd (o.table.length - 1) (table_read o.table (o.table.length - 1)) ∧
    table_read o.table (o.table.length - 1) ≠ Lookup.overread ∧
    main_option o (o.table.length + 1 : Nat) = OptResult.invalid_index (o.table.length + 1) := by
  cases o <;> decide

/-- C9: the second switch of `parse_packet` reads its table at `d[0]` without any
comparison with the table's length.  The frame `send_command` builds for the
pattern key with value 34 (the length of `patterns`), and a well-formed frame
read from the device for the timing key with value 200, are both decoded by a
read past the end of the table. -/
theorem parse_packet_table_overread :
    send_command (List.replicate 256 0) pattern [34] =
      Except.ok [0xaa, 0, 0, 6, 0, 0, 0, 0x62, 0, 34, 0xcc] ∧
    (parse_packet [0xaa, 0, 0, 6, 0, 0, 0, 0x62, 0, 34, 0xcc] 11).crc_ok = true ∧
    (parse_packet [0xaa, 0, 0, 6, 0, 0, 0, 0x62, 0, 34, 0xcc] 11).lines =
      [Line.param "pattern" Lookup.overread 34] ∧
    (parse_packet [0xab, 0, 0, 6, 0, 0, 0, 0x61, 0x80, 200, 0xa6] 11).crc_ok = true ∧
    (parse_packet [0xab, 0, 0, 6, 0, 0, 0, 0x61, 0x80, 200, 0xa6] 11).lines =
      [Line.param "timing" Lookup.overread 200] := by
  decide

/-- C10 as stated fails: for the response payload 62 00 00 the claim gives the
echoed key 0x62 * 256 + 0x00 = 0x6200; `parse_packet` reports 0x0062 and names
it "set pattern". -/
theorem response_echo_counterexample :
    (parse_packet [0xab, 0, 0, 8, 0, 0, 0, 0xff, 0xff, 0x62, 0x00, 0x00, 0xed] 13).lines ≠
      [Line.response (cmd (0x62 * 256 + 0x00)) (0x62 * 256 + 0x00)
        (table_read responses 0x00)] ∧
    (parse_packet [0xab, 0, 0, 8, 0, 0, 0, 0xff, 0xff, 0x62, 0x00, 0x00, 0xed] 13).lines =
      [Line.response "set pattern" 0x0062 (Lookup.label "ok")] := by
  decide

/-- C10 (amended): for every response frame (key bytes 0xFF 0xFF) with payload
b0, b1, s the decoder takes b0 as the low byte of the echoed command key, the
order of the header's key bytes: the key it reports is a 16-bit value whose low
byte is b0, and it names it with `cmd` of the value it reports. -/
theorem response_echo (buf : List Nat) (size : Nat) (hb : ∀ b ∈ buf, b < 256)
    (h7 : byte buf 7 = 0xff) (h8 : byte buf 8 = 0xff) :
    ∃ c, c < 65536 ∧ c % 256 = byte buf 9 ∧
      (parse_packet buf size).lines =
        [Line.response (cmd c) c (table_read responses (byte buf 11))] := by
  refine ⟨((byte buf 10 >>> 8) ||| byte buf 9) % 65536, Nat.mod_lt _ (by norm_num), ?_, ?_⟩
  · have h9 := byte_lt buf hb 9
    have h10 := byte_lt buf hb 10
    have hz : byte buf 10 >>> 8 = 0 := by
      rw [shr_8]
      omega
    rw [hz, Nat.zero_or]
    omega
  · show parse_lines ((byte buf 8 <<< 8) ||| byte buf 7) (fun i => byte buf (9 + i)) = _
    rw [h7, h8]
    rfl

theorem response_echo_witness :
    (∀ b ∈ [0xab, 0, 0, 8, 0, 0, 0, 0xff, 0xff, 0x62, 0x00, 0x00, 0xed], b < 256) ∧
    byte [0xab, 0, 0, 8, 0, 0, 0, 0xff, 0xff, 0x62, 0x00, 0x00, 0xed] 7 = 0xff ∧
    byte [0xab, 0, 0, 8, 0, 0, 0, 0xff, 0xff, 0x62, 0x00, 0x00, 0xed] 8 = 0xff ∧
    ∃ c, c < 65536 ∧
      c % 256 = byte [0xab, 0, 0, 8, 0, 0, 0, 0xff, 0xff, 0x62, 0x00, 0x00, 0xed] 9 ∧
      (parse_packet [0xab, 0, 0, 8, 0, 0, 0, 0xff, 0xff, 0x62, 0x00, 0x00, 0xed] 13).lines =
        [Line.response (cmd c) c
          (table_read responses
            (byte [0xab, 0, 0, 8, 0, 0, 0, 0xff, 0xff, 0x62, 0x00, 0x00, 0xed] 11))] :=
  ⟨by decide, by decide, by decide,
    response_echo [0xab, 0, 0, 8, 0, 0, 0, 0xff, 0xff, 0x62, 0x00, 0x00, 0xed] 13 (by decide)
      (by decide) (by decide)⟩

/-- C11: in the response case the statement `if (d[2] <= ARRAY_SIZE(responses));`
guards nothing, and `s = responses[d[2]]` is executed whatever `d[2]` is.  For
status bytes 0 and 4 the labels "ok" and "invalid_param" are rendered; for the
status byte 5, the length of the table, and for 200, the table is read past its
end. -/
theorem response_status_overread :
    (parse_packet [0xab, 0, 0, 8, 0, 0, 0, 0xff, 0xff, 0x62, 0x00, 0x00, 0xed] 13).lines =
      [Line.response "set pattern" 0x62 (Lookup.label "ok")] ∧
    (parse_packet [0xab, 0, 0, 8, 0, 0, 0, 0xff, 0xff, 0x62, 0x00, 0x04, 0xe9] 13).lines =
      [Line.response "set pattern" 0x62 (Lookup.label "invalid_param")] ∧
    (parse_packet [0xab, 0, 0, 8, 0, 0, 0, 0xff, 0xff, 0x62, 0x00, 0x05, 0xe8] 13).crc_ok = true ∧
    (parse_packet [0xab, 0, 0, 8, 0, 0, 0, 0xff, 0xff, 0x62, 0x00, 0x05, 0xe8] 13).lines =
      [Line.response "set pattern" 0x62 Lookup.overread] ∧
    (parse_packet [0xab, 0, 0, 8, 0, 0, 0, 0xff, 0xff, 0x62, 0x00, 200, 0x25] 13).lines =
      [Line.response "set pattern" 0x62 Lookup.overread] := by
  decide

/-- C12: the second switch of `cmd` has no case for `audio_source` (0x69), a
parameter key of `enum command` that the second switch of `parse_packet` does
handle: `cmd` names it "unk" in its set and in its read variant. -/
theorem cmd_audio_source :
    cmd audio_source = "set unk" ∧
    cmd (audio_source + 0x8000) = "read unk" ∧
    parse_param (audio_source &&& 0x7fff) (fun _ => 1) =
      [Line.param "audio_external_source" (Lookup.label "on") 1] ∧
    cmd audio_width = "set audio_width" ∧
    cmd audio_channel = "set audio_channel" := by
  decide

/-- C13: the first switch of `cmd` names three of the eight literal keys
(`set_addr`, `reset`, `response`).  The five others, which `enum command`
defines as well, fall to the second switch and come out as "read unk". -/
theorem cmd_literal_keys :
    cmd set_addr = "set_addr" ∧ cmd reset = "reset" ∧ cmd response = "response" ∧
    cmd read_native_timing = "read unk" ∧
    cmd read_output_status = "read unk" ∧
    cmd read_edid = "read unk" ∧
    cmd read_hpd_status = "read unk" ∧
    cmd read_address = "read unk" := by
  decide

/-! ## Lemmas on the reader -/

theorem read_loop_succ (env : Env) (fuel k : Nat) (buf : List Nat) (len : Nat)
    (pending : List Nat) :
    read_loop env (fuel + 1) k buf len pending =
      if env.clock k - env.start < RESPONSE_TIMEOUT then
        match env.line k with
        | ReadEvent.error => some (Outcome.read_failed (k + 1))
        | ReadEvent.bytes bs =>
          if ((pending ++ bs).take (256 - len)).length = 0 then
            read_loop env fuel (k + 1) buf len ((pending ++ bs).drop (256 - len))
          else
            match check_frame (read_store buf len ((pending ++ bs).take (256 - len)))
                (len + ((pending ++ bs).take (256 - len)).length)
                ((pending ++ bs).take (256 - len)).length (k + 1) with
            | some o => some o
            | none =>
              read_loop env fuel (k + 1) (read_store buf len ((pending ++ bs).take (256 - len)))
                (len + ((pending ++ bs).take (256 - len)).length)
                ((pending ++ bs).drop (256 - len))
      else some (Outcome.timed_out k) := by
  rfl

/-- With a line on which nothing arrives, the loop runs until the first reading
of the clock that has reached the deadline and ends there as timed out. -/
theorem read_loop_quiet (env : Env) (hq : ∀ j, env.line j = ReadEvent.bytes []) :
    ∀ (d k : Nat) (buf : List Nat) (len fuel : Nat),
      (∀ j, k ≤ j → j < k + d → env.clock j - env.start < RESPONSE_TIMEOUT) →
      ¬ (env.clock (k + d) - env.start < RESPONSE_TIMEOUT) → d < fuel →
      read_loop env fuel k buf len [] = some (Outcome.timed_out (k + d))
  | 0, k, buf, len, fuel, _, hr, hf => by
    obtain ⟨f, rfl⟩ : ∃ f, fuel = f + 1 := ⟨fuel - 1, by omega⟩
    simp only [Nat.add_zero] at hr ⊢
    rw [read_loop_succ, if_neg hr]
  | d + 1, k, buf, len, fuel, hb, hr, hf => by
    obtain ⟨f, rfl⟩ : ∃ f, fuel = f + 1 := ⟨fuel - 1, by omega⟩
    have hk := hb k (Nat.le_refl _) (by omega)
    rw [read_loop_succ, if_pos hk, hq k]
    simp only [List.append_nil, List.take_nil, List.drop_nil, List.length_nil, if_true]
    have := read_loop_quiet env hq d (k + 1) buf len f
      (fun j h1 h2 => hb j (by omega) (by omega))
      (by rw [show k + 1 + d = k + (d + 1) by omega]; exact hr) (by omega)
    rw [this, show k + 1 + d = k + (d + 1) by omega]

theorem byte_append_left (p t : List Nat) (i : Nat) (h : i < p.length) :
    byte (p ++ t) i = byte p i := by
  rw [byte, byte, List.getD_eq_getElem?_getD, List.getD_eq_getElem?_getD,
    List.getElem?_append_left h]

theorem header_len_append (p t : List Nat) (h : 5 ≤ p.length) :
    header_len (p ++ t) = header_len p := by
  rw [header_len, header_len, byte_append_left p t 4 (by omega),
    byte_append_left p t 3 (by omega)]

theorem got_length_le (avail : List Nat) (len : Nat) :
    (avail.take (256 - len)).length ≤ 256 - len := by
  rw [List.length_take]
  exact Nat.min_le_left _ _

theorem read_store_length (buf : List Nat) (len : Nat) (got : List Nat)
    (hb : buf.length = 256) (h : len + got.length ≤ 256) :
    (read_store buf len got).length = 256 := by
  simp only [read_store, List.length_append, List.length_take, List.length_drop, hb]
  omega

theorem read_store_take (buf : List Nat) (len : Nat) (got : List Nat) (h : len ≤ buf.length) :
    (read_store buf len got).take (len + got.length) = buf.take len ++ got := by
  rw [read_store]
  exact List.take_left' (by simp [List.length_take, Nat.min_eq_left h])

theorem check_frame_some (buf : List Nat) (len rz k : Nat) (o : Outcome)
    (h : check_frame buf len rz k = some o) :
    o.decoded = some (buf, len) ∧ 5 ≤ len ∧ 5 + header_len buf ≤ len ∧ o.reads = k ∧
    (crc8 buf (len - 1) ≠ byte buf (len - 1) → o = Outcome.crc_failed buf len k) ∧
    (crc8 buf (len - 1) = byte buf (len - 1) → o = Outcome.complete buf len rz k) := by
  unfold check_frame at h
  by_cases h5 : len < 5
  · simp [h5] at h
  · by_cases hc : len ≥ 5 + header_len buf
    · by_cases hcrc : crc8 buf (len - 1) ≠ byte buf (len - 1)
      · rw [if_neg h5, if_pos hc, if_pos hcrc] at h
        cases h
        exact ⟨rfl, by omega, hc, rfl, fun _ => rfl, fun e => absurd e hcrc⟩
      · rw [if_neg h5, if_pos hc, if_neg hcrc] at h
        cases h
        exact ⟨rfl, by omega, hc, rfl, fun e => absurd e hcrc, fun _ => rfl⟩
    · simp [h5, hc] at h

theorem check_frame_none (buf : List Nat) (len rz k : Nat)
    (h : len < 5 ∨ len < 5 + header_len buf) : check_frame buf len rz k = none := by
  unfold check_frame
  by_cases h5 : len < 5
  · simp [h5]
  · have hc : ¬ (len ≥ 5 + header_len buf) := by omega
    simp [h5, hc]

theorem delivered_succ (env : Env) (k d : Nat) :
    delivered env k (d + 1) = (env.line k).data ++ delivered env (k + 1) d := rfl

/-- As long as the bytes that arrive before the deadline, or the 256 of them that
the array can take, are fewer than 5 plus the length they declare, the loop makes
no call of `parse_packet` and returns 0 once the clock has reached the deadline. -/
theorem read_loop_short (env : Env) (n : Nat)
    (hbefore : ∀ j < n, env.clock j - env.start < RESPONSE_TIMEOUT)
    (hreach : ¬ (env.clock n - env.start < RESPONSE_TIMEOUT)) :
    ∀ (d k : Nat) (buf : List Nat) (len : Nat) (pending : List Nat) (fuel : Nat),
      k + d = n → buf.length = 256 → len ≤ 256 → d < fuel →
      min (buf.take len ++ pending ++ delivered env k d).length 256 <
        5 + header_len (buf.take len ++ pending ++ delivered env k d) →
      ∃ o, read_loop env fuel k buf len pending = some o ∧ o.ret = 0 ∧ o.decoded = none ∧
        o.reads ≤ n ∧
        ((∀ j, k ≤ j → j < n → env.line j ≠ ReadEvent.error) → o = Outcome.timed_out n)
  | 0, k, buf, len, pending, fuel, hkd, _, _, hf, _ => by
    obtain ⟨f, rfl⟩ : ∃ f, fuel = f + 1 := ⟨fuel - 1, by omega⟩
    have hkn : k = n := by omega
    subst hkn
    rw [read_loop_succ, if_neg hreach]
    exact ⟨_, rfl, rfl, rfl, Nat.le_refl _, fun _ => rfl⟩
  | d + 1, k, buf, len, pending, fuel, hkd, hb, hl, hf, hshort => by
    obtain ⟨f, rfl⟩ : ∃ f, fuel = f + 1 := ⟨fuel - 1, by omega⟩
    rw [read_loop_succ, if_pos (hbefore k (by omega))]
    cases hev : env.line k with
    | error =>
      refine ⟨_, rfl, rfl, rfl, by simp only [Outcome.reads]; omega, fun hne => ?_⟩
      exact absurd hev (hne k (Nat.le_refl _) (by omega))
    | bytes bs =>
      simp only
      have hgl := got_length_le (pending ++ bs) len
      have hsplit : (pending ++ bs).take (256 - len) ++ (pending ++ bs).drop (256 - len) =
          pending ++ bs := List.take_append_drop _ _
      have hS : buf.take len ++ pending ++ delivered env k (d + 1) =
          (buf.take len ++ (pending ++ bs).take (256 - len)) ++
            ((pending ++ bs).drop (256 - len) ++ delivered env (k + 1) d) := by
        rw [delivered_succ, hev, ReadEvent.data]
        calc buf.take len ++ pending ++ (bs ++ delivered env (k + 1) d)
            = buf.take len ++ (pending ++ bs) ++ delivered env (k + 1) d := by
              simp only [List.append_assoc]
          _ = buf.take len ++ ((pending ++ bs).take (256 - len) ++
                (pending ++ bs).drop (256 - len)) ++ delivered env (k + 1) d := by rw [hsplit]
          _ = _ := by simp only [List.append_assoc]
      rw [hS] at hshort
      by_cases hz : ((pending ++ bs).take (256 - len)).length = 0
      · rw [if_pos hz]
        have hgot : (pending ++ bs).take (256 - len) = [] := List.length_eq_zero.mp hz
        rw [hgot, List.append_nil, ← List.append_assoc] at hshort
        obtain ⟨o, h1, h2, h3, h4, h5⟩ :=
          read_loop_short env n hbefore hreach d (k + 1) buf len _ f (by omega) hb hl (by omega)
            hshort
        exact ⟨o, h1, h2, h3, h4, fun hne => h5 (fun j hj1 hj2 => hne j (by omega) hj2)⟩
      · rw [if_neg hz]
        have hplen : (buf.take len ++ (pending ++ bs).take (256 - len)).length =
            len + ((pending ++ bs).take (256 - len)).length := by
          rw [List.length_append, List.length_take, Nat.min_eq_left (by omega)]
        have hnone : check_frame (read_store buf len ((pending ++ bs).take (256 - len)))
            (len + ((pending ++ bs).take (256 - len)).length)
            ((pending ++ bs).take (256 - len)).length (k + 1) = none := by
          apply check_frame_none
          by_cases h5 : len + ((pending ++ bs).take (256 - len)).length < 5
          · exact Or.inl h5
          · right
            rw [header_len_append _ _ (by omega)] at hshort
            rw [read_store, header_len_append _ _ (by omega)]
            rw [List.length_append, hplen] at hshort
            omega
        rw [hnone]
        simp only
        have hinv : (read_store buf len ((pending ++ bs).take (256 - len))).take
            (len + ((pending ++ bs).take (256 - len)).length) ++
              (pending ++ bs).drop (256 - len) ++ delivered env (k + 1) d =
            (buf.take len ++ (pending ++ bs).take (256 - len)) ++
              ((pending ++ bs).drop (256 - len) ++ delivered env (k + 1) d) := by
          rw [read_store_take buf len _ (by omega)]
          simp only [List.append_assoc]
        rw [← hinv] at hshort
        obtain ⟨o, h1, h2, h3, h4, h5⟩ :=
          read_loop_short env n hbefore hreach d (k + 1) _ _ _ f (by omega)
            (read_store_length buf len _ hb (by omega)) (by omega) (by omega) hshort
        exact ⟨o, h1, h2, h3, h4, fun hne => h5 (fun j hj1 hj2 => hne j (by omega) hj2)⟩

/-- No call of `read` follows one that failed: the loop ends at the first failing
call it makes, as `read_failed`. -/
theorem read_loop_error_stops (env : Env) :
    ∀ (fuel k : Nat) (buf : List Nat) (len : Nat) (pending : List Nat) (o : Outcome),
      read_loop env fuel k buf len pending = some o →
      k ≤ o.reads ∧
      ∀ j, k ≤ j → env.line j = ReadEvent.error →
        o.reads ≤ j + 1 ∧ (o.reads = j + 1 → o = Outcome.read_failed (j + 1))
  | 0, _, _, _, _, _, h => by simp [read_loop] at h
  | fuel + 1, k, buf, len, pending, o, h => by
    rw [read_loop_succ] at h
    by_cases hk : env.clock k - env.start < RESPONSE_TIMEOUT
    · rw [if_pos hk] at h
      cases hev : env.line k with
      | error =>
        rw [hev] at h
        cases h
        refine ⟨by simp only [Outcome.reads]; omega, fun j hj _ => ?_⟩
        simp only [Outcome.reads]
        refine ⟨by omega, fun e => ?_⟩
        have : k = j := by omega
        rw [this]
      | bytes bs =>
        rw [hev] at h
        simp only at h
        have hjk : ∀ j, k ≤ j → env.line j = ReadEvent.error → k + 1 ≤ j := by
          intro j hj he
          by_cases e : j = k
          · rw [e, hev] at he
            cases he
          · omega
        by_cases hz : ((pending ++ bs).take (256 - len)).length = 0
        · rw [if_pos hz] at h
          obtain ⟨h1, h2⟩ := read_loop_error_stops env fuel (k + 1) _ _ _ o h
          exact ⟨by omega, fun j hj he => h2 j (hjk j hj he) he⟩
        · rw [if_neg hz] at h
          cases hcf : check_frame (read_store buf len ((pending ++ bs).take (256 - len)))
              (len + ((pending ++ bs).take (256 - len)).length)
              ((pending ++ bs).take (256 - len)).length (k + 1) with
          | some o1 =>
            rw [hcf] at h
            cases h
            obtain ⟨_, _, _, c4, _, _⟩ := check_frame_some _ _ _ _ _ hcf
            refine ⟨by omega, fun j hj he => ?_⟩
            have := hjk j hj he
            exact ⟨by omega, fun e => by omega⟩
          | none =>
            rw [hcf] at h
            simp only at h
            obtain ⟨h1, h2⟩ := read_loop_error_stops env fuel (k + 1) _ _ _ o h
            exact ⟨by omega, fun j hj he => h2 j (hjk j hj he) he⟩
    · rw [if_neg hk] at h
      cases h
      refine ⟨Nat.le_refl _, fun j hj _ => ?_⟩
      simp only [Outcome.reads]
      exact ⟨by omega, fun e => by omega⟩

/-- C14: no false completion.  If the bytes delivered by the reads made before
the clock reaches the deadline (the bytes that arrive, at most the 256 that the
array takes) are fewer than 5 plus the length declared in bytes 3-4 of the
stream, `read_response` makes no call of the decoder and returns 0; when no read
fails it ends as timed out, at the first reading of the clock that has reached
the deadline. -/
theorem no_false_completion (env : Env) (n fuel : Nat) (stack : List Nat)
    (hs : stack.length = 256)
    (hbefore : ∀ j < n, env.clock j - env.start < RESPONSE_TIMEOUT)
    (hreach : ¬ (env.clock n - env.start < RESPONSE_TIMEOUT))
    (hshort : min (delivered env 0 n).length 256 < 5 + header_len (delivered env 0 n))
    (hfuel : n < fuel) :
    ∃ o, read_response env fuel stack = some o ∧ o.ret = 0 ∧ o.decoded = none ∧
      ((∀ j < n, env.line j ≠ ReadEvent.error) → o = Outcome.timed_out n) := by
  have h := read_loop_short env n hbefore hreach n 0 stack 0 [] fuel (by omega) hs (by omega)
    hfuel (by simpa using hshort)
  obtain ⟨o, h1, h2, h3, _, h5⟩ := h
  exact ⟨o, h1, h2, h3, fun hne => h5 (fun j _ hj => hne j hj)⟩

theorem no_false_completion_witness :
    (List.replicate 256 0).length = 256 ∧
    (∀ j < 3, (burst [0xaa, 0, 0, 6, 0, 0, 0, 0x62, 0, 3] 3).clock j -
      (burst [0xaa, 0, 0, 6, 0, 0, 0, 0x62, 0, 3] 3).start < RESPONSE_TIMEOUT) ∧
    ¬ ((burst [0xaa, 0, 0, 6, 0, 0, 0, 0x62, 0, 3] 3).clock 3 -
      (burst [0xaa, 0, 0, 6, 0, 0, 0, 0x62, 0, 3] 3).start < RESPONSE_TIMEOUT) ∧
    min (delivered (burst [0xaa, 0, 0, 6, 0, 0, 0, 0x62, 0, 3] 3) 0 3).length 256 <
      5 + header_len (delivered (burst [0xaa, 0, 0, 6, 0, 0, 0, 0x62, 0, 3] 3) 0 3) ∧
    3 < 4 ∧
    ∃ o, read_response (burst [0xaa, 0, 0, 6, 0, 0, 0, 0x62, 0, 3] 3) 4 (List.replicate 256 0) =
        some o ∧ o.ret = 0 ∧ o.decoded = none ∧
      ((∀ j < 3, (burst [0xaa, 0, 0, 6, 0, 0, 0, 0x62, 0, 3] 3).line j ≠ ReadEvent.error) →
        o = Outcome.timed_out 3) :=
  ⟨List.length_replicate _ _, by decide, by decide, by decide, by decide,
    no_false_completion (burst [0xaa, 0, 0, 6, 0, 0, 0, 0x62, 0, 3] 3) 3 4 (List.replicate 256 0)
      (List.length_replicate _ _) (by decide) (by decide) (by decide) (by decide)⟩

/-- C15: `read_response` passes `len`, the count of all the bytes accumulated, to
`parse_packet` and to `crc8`, not 5 plus the declared length.  A valid 11-byte
frame alone is decoded with size 11 and accepted; the same frame followed in the
same read by one more byte is decoded with size 12, its checksum is computed
over 11 bytes and compared with the foreign byte, and the function returns -1. -/
theorem trailing_byte_breaks_checksum :
    crc8 [0xaa, 0, 0, 6, 0, 0, 0, 0x62, 0, 3, 0xeb] 10 =
      byte [0xaa, 0, 0, 6, 0, 0, 0, 0x62, 0, 3, 0xeb] 10 ∧
    5 + header_len [0xaa, 0, 0, 6, 0, 0, 0, 0x62, 0, 3, 0xeb] = 11 ∧
    read_response (burst [0xaa, 0, 0, 6, 0, 0, 0, 0x62, 0, 3, 0xeb] 3) 4 (List.replicate 256 0) =
      some (Outcome.complete
        ([0xaa, 0, 0, 6, 0, 0, 0, 0x62, 0, 3, 0xeb] ++ List.replicate 245 0) 11 11 1) ∧
    read_response (burst [0xaa, 0, 0, 6, 0, 0, 0, 0x62, 0, 3, 0xeb, 0xab] 3) 4
        (List.replicate 256 0) =
      some (Outcome.crc_failed
        ([0xaa, 0, 0, 6, 0, 0, 0, 0x62, 0, 3, 0xeb, 0xab] ++ List.replicate 244 0) 12 1) ∧
    (Outcome.crc_failed
        ([0xaa, 0, 0, 6, 0, 0, 0, 0x62, 0, 3, 0xeb, 0xab] ++ List.replicate 244 0) 12 1).ret =
      -1 := by
  decide

/-- C16: timeout bound.  With a line on which no read yields data and a clock
that reaches `start + RESPONSE_TIMEOUT`, the loop ends at the first reading `n`
of the clock that has reached the deadline: `read_response` returns 0 as timed
out, without a call of the decoder, after `n` reads, each made after a reading of
the clock below the deadline. -/
theorem timeout_bound (env : Env) (stack : List Nat) (m : Nat)
    (hquiet : ∀ j, env.line j = ReadEvent.bytes [])
    (hreach : env.start + RESPONSE_TIMEOUT ≤ env.clock m) :
    ∃ n, n ≤ m ∧ (∀ j < n, env.clock j < env.start + RESPONSE_TIMEOUT) ∧
      env.start + RESPONSE_TIMEOUT ≤ env.clock n ∧
      (∀ fuel, n < fuel → read_response env fuel stack = some (Outcome.timed_out n)) ∧
      (Outcome.timed_out n).ret = 0 ∧ (Outcome.timed_out n).decoded = none ∧
      (Outcome.timed_out n).reads = n := by
  have hex : ∃ i, env.start + RESPONSE_TIMEOUT ≤ env.clock i := ⟨m, hreach⟩
  refine ⟨Nat.find hex, Nat.find_min' hex hreach, ?_, Nat.find_spec hex, ?_, rfl, rfl, rfl⟩
  · intro j hj
    exact Int.not_le.mp (Nat.find_min hex hj)
  · intro fuel hf
    have h := read_loop_quiet env hquiet (Nat.find hex) 0 stack 0 fuel
      (fun j _ hj => by
        have := Int.not_le.mp (Nat.find_min hex (show j < Nat.find hex by omega))
        omega)
      (by
        have := Nat.find_spec hex
        rw [Nat.zero_add]
        omega) hf
    rw [Nat.zero_add] at h
    exact h

theorem timeout_bound_witness :
    (∀ j, (burst [] 3).line j = ReadEvent.bytes []) ∧
    (burst [] 3).start + RESPONSE_TIMEOUT ≤ (burst [] 3).clock 5 ∧
    ∃ n, n ≤ 5 ∧ (∀ j < n, (burst [] 3).clock j < (burst [] 3).start + RESPONSE_TIMEOUT) ∧
      (burst [] 3).start + RESPONSE_TIMEOUT ≤ (burst [] 3).clock n ∧
      (∀ fuel, n < fuel →
        read_response (burst [] 3) fuel (List.replicate 256 0) = some (Outcome.timed_out n)) ∧
      (Outcome.timed_out n).ret = 0 ∧ (Outcome.timed_out n).decoded = none ∧
      (Outcome.timed_out n).reads = n :=
  ⟨fun j => by simp [burst], by decide,
    timeout_bound (burst [] 3) (List.replicate 256 0) 5 (fun j => by simp [burst]) (by decide)⟩

/-- C17: the guard of `read_response` is `if (len < 5) continue;`, not a test for
the 9 bytes of the header.  The five bytes AB 55 00 00 00 declare the length 0,
so that the frame is complete at 5 bytes: `parse_packet` is called with size 5,
the function returns 5, and the decoder takes the key from offsets 7 and 8, which
were not received and hold what the array held before: 0x5555 on a stack of 0x55
bytes, 0 on a stack of zeros. -/
theorem short_header_stale_key :
    ((read_response (burst [0xab, 0x55, 0, 0, 0] 3) 4 (List.replicate 256 0x55)).bind
      Outcome.decoded).map Prod.snd = some 5 ∧
    (read_response (burst [0xab, 0x55, 0, 0, 0] 3) 4 (List.replicate 256 0x55)).map
      Outcome.ret = some 5 ∧
    (delivered (burst [0xab, 0x55, 0, 0, 0] 3) 0 3).length = 5 ∧
    ((read_response (burst [0xab, 0x55, 0, 0, 0] 3) 4 (List.replicate 256 0x55)).bind
      Outcome.decoded).map (fun p => (parse_packet p.1 p.2).key) = some 0x5555 ∧
    ((read_response (burst [0xab, 0x55, 0, 0, 0] 3) 4 (List.replicate 256 0)).bind
      Outcome.decoded).map (fun p => (parse_packet p.1 p.2).key) = some 0 := by
  decide

/-- C18 as stated fails: a run that ends on a failing `read` and a run that ends
on the deadline return the same value 0. -/
theorem read_error_counterexample :
    read_response broken_line 4 (List.replicate 256 0) = some (Outcome.read_failed 1) ∧
    read_response (burst [] 3) 4 (List.replicate 256 0) = some (Outcome.timed_out 3) ∧
    (read_response broken_line 4 (List.replicate 256 0)).map Outcome.ret =
      (read_response (burst [] 3) 4 (List.replicate 256 0)).map Outcome.ret := by
  decide

/-- C18 (amended): when a call of `read` reports an error, `read_response` stops at
once.  In whatever state the loop is, an iteration before the deadline whose
`read` fails ends the function without a call of the decoder; no run makes a
call of `read` after one that failed, and a run that made the failing call ends
there.  The value returned is 0, the value of the timed-out result. -/
theorem read_error_stops (env : Env) :
    (∀ (fuel k : Nat) (buf : List Nat) (len : Nat) (pending : List Nat),
      env.clock k - env.start < RESPONSE_TIMEOUT → env.line k = ReadEvent.error →
      read_loop env (fuel + 1) k buf len pending = some (Outcome.read_failed (k + 1))) ∧
    (∀ (fuel : Nat) (stack : List Nat) (o : Outcome) (j : Nat),
      read_response env fuel stack = some o → env.line j = ReadEvent.error →
      o.reads ≤ j + 1 ∧
      (o.reads = j + 1 → o = Outcome.read_failed (j + 1) ∧ o.decoded = none ∧ o.ret = 0 ∧
        o.ret = (Outcome.timed_out j).ret)) := by
  constructor
  · intro fuel k buf len pending hk he
    rw [read_loop_succ, if_pos hk, he]
  · intro fuel stack o j hrun he
    obtain ⟨_, h2⟩ := read_loop_error_stops env fuel 0 stack 0 [] o hrun
    obtain ⟨h3, h4⟩ := h2 j (Nat.zero_le _) he
    refine ⟨h3, fun e => ?_⟩
    have ho := h4 e
    subst ho
    exact ⟨rfl, rfl, rfl, rfl⟩

theorem read_error_stops_witness :
    (broken_line.clock 2 - broken_line.start < RESPONSE_TIMEOUT ∧
      broken_line.line 2 = ReadEvent.error ∧
      read_loop broken_line (0 + 1) 2 (List.replicate 256 0) 3 [] =
        some (Outcome.read_failed (2 + 1))) ∧
    (read_response broken_line 4 (List.replicate 256 0) = some (Outcome.read_failed 1) ∧
      broken_line.line 0 = ReadEvent.error ∧
      (Outcome.read_failed 1).reads ≤ 0 + 1 ∧
      (Outcome.read_failed 1).reads = 0 + 1 ∧
      Outcome.read_failed 1 = Outcome.read_failed (0 + 1) ∧
      (Outcome.read_failed 1).decoded = none ∧ (Outcome.read_failed 1).ret = 0 ∧
      (Outcome.read_failed 1).ret = (Outcome.timed_out 0).ret) :=
  ⟨⟨by decide, by decide,
      (read_error_stops broken_line).1 0 2 (List.replicate 256 0) 3 [] (by decide) (by decide)⟩,
    ⟨by decide, by decide,
      ((read_error_stops broken_line).2 4 (List.replicate 256 0) (Outcome.read_failed 1) 0
        (by decide) (by decide)).1,
      by decide,
      (((read_error_stops broken_line).2 4 (List.replicate 256 0) (Outcome.read_failed 1) 0
        (by decide) (by decide)).2 (by decide)).1,
      (((read_error_stops broken_line).2 4 (List.replicate 256 0) (Outcome.read_failed 1) 0
        (by decide) (by decide)).2 (by decide)).2.1,
      (((read_error_stops broken_line).2 4 (List.replicate 256 0) (Outcome.read_failed 1) 0
        (by decide) (by decide)).2 (by decide)).2.2.1,
      (((read_error_stops broken_line).2 4 (List.replicate 256 0) (Outcome.read_failed 1) 0
        (by decide) (by decide)).2 (by decide)).2.2.2⟩⟩

/-- C20: the table `timings` has 65 entries: the adjacent literals of lines
109-110 are one string at index 38, index 39 is "FP3D_1920x1080P_23.976HZ", "Auto"
is at index 54 and "User10" at index 64; the other tables have one entry per
listed label (34, 5, 5, 3, 8, 4, 8, 2 and 5 entries). -/
theorem table_sizes :
    timings.length = 65 ∧
    timings[38]? = some "FP3D_1280x720P_59.94HZFP3D_1920x1080P_24HZ" ∧
    timings[37]? = some "FP3D_1280x720P_60HZ" ∧
    timings[39]? = some "FP3D_1920x1080P_23.976HZ" ∧
    timings[54]? = some "Auto" ∧
    timings[64]? = some "User10" ∧
    timings[65]? = none ∧
    patterns.length = 34 ∧ colorspaces.length = 5 ∧ deepcolors.length = 5 ∧
    output_types.length = 3 ∧ audio_samplerates.length = 8 ∧ audio_widths.length = 4 ∧
    audio_channels.length = 8 ∧ enables.length = 2 ∧ responses.length = 5 ∧
    main_option Opt.timing 64 = OptResult.selected timing 64 (Lookup.label "User10") := by
  decide

end Sg4k
